import Mathlib

/-!
Verification of `lib/utils/fdt/fdt_helper.c` (OpenSBI FDT helper routines).

The libfdt primitives (node lookup, property read/write, blob growth) and
the platform collaborator (hart table, PMP regions) are external to the
file under verification; they are modelled as oracle fields of small
environment structures, so every helper routine becomes a pure Lean
function of the oracle answers it consumes.  Cells are modelled at 32-bit
granularity as natural numbers; big-endian byte order is invisible at that
granularity (fdt32_to_cpu/cpu_to_fdt32 are the identity on cell values).
Throughout, `4294967296 = 2^32` and `18446744073709551616 = 2^64`.
-/

namespace FdtHelper

/-- Modelled from the spec: the no-such-device error code `SBI_ENODEV` comes
from `include/sbi/sbi_error.h`, which is not under `src/`; only its
negativity matters to the routines verified here. -/
def SBI_ENODEV : Int := -6

/-- Modelled from the spec: the RISC-V machine-external-interrupt number
`IRQ_M_EXT` comes from `include/sbi/riscv_encoding.h`, not under `src/`. -/
def IRQ_M_EXT : Nat := 11

/-- Modelled from the spec: PMP configuration read-permission bit, from
`include/sbi/riscv_encoding.h` (not under `src/`). -/
def PMP_R : Nat := 1

/-- Modelled from the spec: PMP configuration write-permission bit. -/
def PMP_W : Nat := 2

/-- Modelled from the spec: PMP configuration execute-permission bit. -/
def PMP_X : Nat := 4

/-- Modelled from the spec: PMP configuration address-matching-mode field;
a nonzero A field marks the entry active. -/
def PMP_A : Nat := 24

/-- Decoding loop of `fdt_get_node_addr_size` (fdt_helper.c lines 228-229 and
235-236): `temp = (temp << 32) | fdt32_to_cpu(*p++)` over `k` cells starting
at cell index `pos`, with `temp` a 64-bit accumulator. -/
def decodeLoop (mem : Nat → Nat) : Nat → Nat → Nat → Nat
  | 0, _, temp => temp
  | k + 1, pos, temp =>
      decodeLoop mem k (pos + 1) ((temp * 4294967296 + mem pos % 4294967296) % 18446744073709551616)

/-- Inputs consumed by `fdt_get_node_addr_size` for one node: the results of
`fdt_parent_offset`, `fdt_address_cells(parent)`, `fdt_size_cells(parent)`,
whether `fdt_getprop(node, "reg")` returns non-NULL, the byte length that
`fdt_getprop` reports through `&len`, and the cell stream of blob memory
starting at the `reg` property (cells past the property's extent are the
adjacent blob bytes). -/
structure RegNode where
  parentOff : Int
  cellAddr : Int
  cellSize : Int
  hasReg : Bool
  regLen : Int
  mem : Nat → Nat

/-- Shallow embedding of `fdt_get_node_addr_size` (fdt_helper.c lines
203-241).  `wantAddr`/`wantSize` model whether the caller passed non-NULL
`addr`/`size` out-pointers; the returned options are the values stored
through them.  The function is a pure read: it returns only the status code
and the decoded values, and never touches the blob. -/
def fdt_get_node_addr_size (n : RegNode) (wantAddr wantSize : Bool) :
    Int × Option Nat × Option Nat :=
  if n.parentOff < 0 then (n.parentOff, none, none)
  else if n.cellAddr < 1 then (SBI_ENODEV, none, none)
  else if n.cellSize < 0 then (SBI_ENODEV, none, none)
  else if n.hasReg = false then (SBI_ENODEV, none, none)
  else (0,
        if wantAddr then some (decodeLoop n.mem n.cellAddr.toNat 0 0) else none,
        if wantSize then some (decodeLoop n.mem n.cellSize.toNat n.cellAddr.toNat 0) else none)

/-- Encoding of the `reg` property value in `fdt_reserved_memory_fixup`
(fdt_helper.c lines 148-151 and 176-182): the high cell of each axis is
emitted only when that axis has more than one cell; `fdt32_t` casts
truncate to 32 bits. -/
def encodeReg (na ns : Int) (addr size : Nat) : List Nat :=
  (if 1 < na then [addr / 4294967296 % 4294967296] else []) ++ [addr % 4294967296] ++
  (if 1 < ns then [size / 4294967296 % 4294967296] else []) ++ [size % 4294967296]

/-- Number of cells the encoding loop (fdt_helper.c lines 176-182) stores
into the 4-cell staging buffer `fdt32_t reg[4]`. -/
def regCellsWritten (na ns : Int) : Int :=
  ((if 1 < na then 1 else 0) + 1) + ((if 1 < ns then 1 else 0) + 1)

/-- Output record of the UART parser, `struct platform_uart_data`. -/
structure UartData where
  addr : Nat
  freq : Nat
  baud : Nat
  deriving DecidableEq

/-- Oracle answers consumed by `fdt_parse_uart8250`: the
`fdt_node_offset_by_compatible` result, the resolver inputs of that node,
and the optional `clock-frequency` and `current-speed` scalar properties
(present with positive length, or absent). -/
structure UartEnv where
  nodeOff : Int
  node : RegNode
  clockFreq : Option Nat
  currentSpeed : Option Nat

/-- Shallow embedding of `fdt_parse_uart8250` (fdt_helper.c lines 243-277);
returns the status code and the caller's descriptor, updated only on
success. -/
def fdt_parse_uart8250 (e : UartEnv) (uart : UartData) : Int × UartData :=
  if e.nodeOff < 0 then (e.nodeOff, uart)
  else if (fdt_get_node_addr_size e.node true true).1 < 0 ∨
          (fdt_get_node_addr_size e.node true true).2.1.getD 0 = 0 ∨
          (fdt_get_node_addr_size e.node true true).2.2.getD 0 = 0 then (SBI_ENODEV, uart)
  else (0,
    { addr := (fdt_get_node_addr_size e.node true true).2.1.getD 0,
      freq := match e.clockFreq with
              | some v => v
              | none => uart.freq,
      baud := match e.currentSpeed with
              | some v => v
              | none => uart.baud })

/-- Output record of the PLIC parser, `struct platform_plic_data`. -/
structure PlicData where
  addr : Nat
  num_src : Nat
  deriving DecidableEq

/-- Oracle answers consumed by `fdt_parse_plic`: node lookup result,
resolver inputs, and the optional `riscv,ndev` scalar property. -/
structure PlicParseEnv where
  nodeOff : Int
  node : RegNode
  ndev : Option Nat

/-- Shallow embedding of `fdt_parse_plic` (fdt_helper.c lines 279-300). -/
def fdt_parse_plic (e : PlicParseEnv) (plic : PlicData) : Int × PlicData :=
  if e.nodeOff < 0 then (e.nodeOff, plic)
  else if (fdt_get_node_addr_size e.node true true).1 < 0 ∨
          (fdt_get_node_addr_size e.node true true).2.1.getD 0 = 0 ∨
          (fdt_get_node_addr_size e.node true true).2.2.getD 0 = 0 then (SBI_ENODEV, plic)
  else (0,
    { addr := (fdt_get_node_addr_size e.node true true).2.1.getD 0,
      num_src := match e.ndev with
                 | some v => v
                 | none => plic.num_src })

/-- Oracle answers consumed by `fdt_parse_clint`: node lookup result and
resolver inputs. -/
structure ClintEnv where
  nodeOff : Int
  node : RegNode

/-- Shallow embedding of `fdt_parse_clint` (fdt_helper.c lines 302-316).
`ptrValid` models whether the caller's `clint_addr` out-pointer is non-NULL:
the source checks `rc < 0 || !clint_addr`, i.e. it tests the POINTER, not
the resolved value.  The second component is the value stored through the
pointer (none when nothing was stored). -/
def fdt_parse_clint (e : ClintEnv) (ptrValid : Bool) : Int × Option Nat :=
  if e.nodeOff < 0 then (e.nodeOff, none)
  else if (fdt_get_node_addr_size e.node ptrValid false).1 < 0 ∨ ptrValid = false then
    (SBI_ENODEV, (fdt_get_node_addr_size e.node ptrValid false).2.1)
  else (0, (fdt_get_node_addr_size e.node ptrValid false).2.1)

/-- One attempted `fdt_setprop_string` call: the node handle passed in and
the property name/value. -/
structure Setprop where
  node : Int
  prop : String
  value : String
  deriving DecidableEq

/-- Oracle answers consumed by `fdt_cpu_fixup`: the `fdt_open_into` result,
the platform hart count, the per-index `sbi_platform_hart_invalid`
predicate, and the `fdt_path_offset` result for path `/cpus/cpu@<i>`. -/
structure CpuEnv where
  openErr : Int
  hartCount : Nat
  hartInvalid : Nat → Bool
  pathOff : Nat → Int

/-- Shallow embedding of `fdt_cpu_fixup` (fdt_helper.c lines 16-40),
returning the list of `fdt_setprop_string` calls it attempts, in loop
order.  The source performs the lookup `cpu_offset = fdt_path_offset(...)`
and then calls `fdt_setprop_string(fdt, cpu_offset, "status", "disabled")`
for every invalid hart WITHOUT checking `cpu_offset >= 0`. -/
def fdt_cpu_fixup (e : CpuEnv) : List Setprop :=
  if e.openErr < 0 then []
  else (List.range e.hartCount).filterMap fun i =>
    if e.hartInvalid i then some ⟨e.pathOff i, "status", "disabled"⟩ else none

/-- Modelled from the spec: the blob-encoding collaborator (libfdt) is
assumed correct and rejects an invalid (negative) node handle without
modifying the blob, so the attempted writes that actually change the blob
are exactly those aimed at a valid handle. -/
def appliedSetprops (l : List Setprop) : List Setprop :=
  l.filter fun s => 0 ≤ s.node

/-- Oracle answers consumed by `fdt_plic_fixup`: the
`fdt_node_offset_by_compatible` result and the `interrupts-extended`
property as a cell array (none when `fdt_getprop` returns NULL). -/
structure PlicFixupEnv where
  nodeOff : Int
  prop : Option (List Nat)

/-- Pair-rewriting loop of `fdt_plic_fixup` (fdt_helper.c lines 61-64):
for `i < cells_count / 2`, if cell `2*i+1` equals `IRQ_M_EXT` it is
overwritten with `0xffffffff`; a trailing lone cell of an odd-length array
is outside every pair and is left alone. -/
def plicRewrite : List Nat → List Nat
  | a :: b :: rest => a :: (if b = IRQ_M_EXT then 4294967295 else b) :: plicRewrite rest
  | l => l

/-- Shallow embedding of `fdt_plic_fixup` (fdt_helper.c lines 42-65),
returning the new value of the `interrupts-extended` property.  The routine
mutates only that property's bytes in place; every other byte of the blob
is untouched, which the model expresses by returning nothing else. -/
def fdt_plic_fixup (e : PlicFixupEnv) : Option (List Nat) :=
  if e.nodeOff < 0 then e.prop
  else match e.prop with
    | none => none
    | some cells => if cells.length = 0 then some cells else some (plicRewrite cells)

/-- Hexadecimal rendering of a 32-bit value as done by `sbi_snprintf` with
a `%x` conversion: lowercase digits, no leading zeros, `"0"` for zero. -/
def hexStr (n : Nat) : String := String.mk (Nat.toDigits 16 n)

/-- Child node name synthesis of `fdt_reserved_memory_fixup` (fdt_helper.c
lines 153-160): the `mmode_pmp<j>@<high>,<low>` form is used exactly when
`na > 1 && addr_high` holds, with `addr_high` the truncated upper 32 bits.
The 32-byte `name` buffer cannot overflow for the index and address widths
reachable here, so snprintf truncation is not modelled. -/
def childName (na : Int) (j : Nat) (addrHigh addrLow : Nat) : String :=
  if 1 < na ∧ addrHigh ≠ 0 then
    "mmode_pmp" ++ toString j ++ "@" ++ hexStr addrHigh ++ "," ++ hexStr addrLow
  else
    "mmode_pmp" ++ toString j ++ "@" ++ hexStr addrLow

/-- A reserved-memory child node as written into the blob: its name, whether
its empty `no-map` property was set, and its `reg` property cells (none if
the fixup aborted before writing `reg`). -/
structure RmChild where
  name : String
  noMap : Bool
  reg : Option (List Nat)
  deriving DecidableEq

/-- Region eligibility test of the fixup loop (fdt_helper.c lines 145-147):
the region is exported iff its PMP entry is active (nonzero A field) and
grants none of the read/write/execute permissions. -/
def pmpEligible (prot : Nat) : Bool :=
  decide (prot &&& PMP_A ≠ 0 ∧ prot &&& (PMP_R ||| PMP_W ||| PMP_X) = 0)

/-- Oracle answers consumed by `fdt_reserved_memory_fixup`:
`sbi_platform_has_pmp`, the `fdt_open_into` result, the `/reserved-memory`
path lookup, the results of creating the container node and its three
properties, the root's address/size cell counts, the PMP region table
(`pmp_get` for indices `0 .. PMP_COUNT-1`, each entry `(prot, addr, size)`),
and the per-eligible-index results of `fdt_add_subnode`,
`fdt_setprop_empty("no-map")` and `fdt_setprop("reg")`. -/
structure RmEnv where
  hasPmp : Bool
  openIntoErr : Int
  resvOff : Int
  addRootSub : Int
  rangesErr : Int
  sizeCellsErr : Int
  addrCellsErr : Int
  na : Int
  ns : Int
  pmp : List (Nat × Nat × Nat)
  addSubErr : Nat → Int
  noMapErr : Nat → Int
  regErr : Nat → Int

/-- Region loop of `fdt_reserved_memory_fixup` (fdt_helper.c lines 143-191):
`j` counts emitted children only; inactive regions and regions granting any
of R/W/X are skipped without advancing `j`; any node or property failure
aborts immediately with that error, leaving the children already written. -/
def rmLoop (env : RmEnv) : List (Nat × Nat × Nat) → Nat → Int × List RmChild
  | [], _ => (0, [])
  | (prot, addr, size) :: rest, j =>
    if prot &&& PMP_A = 0 then rmLoop env rest j
    else if prot &&& (PMP_R ||| PMP_W ||| PMP_X) ≠ 0 then rmLoop env rest j
    else if env.addSubErr j < 0 then (env.addSubErr j, [])
    else if env.noMapErr j < 0 then
      (env.noMapErr j,
        [⟨childName env.na j (addr / 4294967296 % 4294967296) (addr % 4294967296), false, none⟩])
    else if env.regErr j < 0 then
      (env.regErr j,
        [⟨childName env.na j (addr / 4294967296 % 4294967296) (addr % 4294967296), true, none⟩])
    else
      ((rmLoop env rest (j + 1)).1,
        ⟨childName env.na j (addr / 4294967296 % 4294967296) (addr % 4294967296), true,
          some (encodeReg env.na env.ns addr size)⟩ :: (rmLoop env rest (j + 1)).2)

/-- Shallow embedding of `fdt_reserved_memory_fixup` (fdt_helper.c lines
82-194): trivial success when the platform has no PMP, propagated failure
from blob growth, container lookup/creation, then the region loop.  The
result is the status code and the child nodes written under the container. -/
def fdt_reserved_memory_fixup (env : RmEnv) : Int × List RmChild :=
  if env.hasPmp = false then (0, [])
  else if env.openIntoErr < 0 then (env.openIntoErr, [])
  else if env.resvOff < 0 then
    if env.addRootSub < 0 then (env.addRootSub, [])
    else if env.rangesErr < 0 then (env.rangesErr, [])
    else if env.sizeCellsErr < 0 then (env.sizeCellsErr, [])
    else if env.addrCellsErr < 0 then (env.addrCellsErr, [])
    else rmLoop env env.pmp 0
  else rmLoop env env.pmp 0

/-- The setup phase of the reserved-memory fixup succeeds: protection is
active, blob growth succeeded, and the container node was found or was
created with its three properties. -/
def rmSetupOk (env : RmEnv) : Prop :=
  env.hasPmp = true ∧ 0 ≤ env.openIntoErr ∧
  (0 ≤ env.resvOff ∨
    (0 ≤ env.addRootSub ∧ 0 ≤ env.rangesErr ∧ 0 ≤ env.sizeCellsErr ∧ 0 ≤ env.addrCellsErr))

/-- Every per-child node/property operation of the region loop succeeds. -/
def rmChildOpsOk (env : RmEnv) : Prop :=
  ∀ j, 0 ≤ env.addSubErr j ∧ 0 ≤ env.noMapErr j ∧ 0 ≤ env.regErr j

/-- Oracle answers consumed by `fdt_fixups`: those of its two callees. -/
structure FixupsEnv where
  plicFix : PlicFixupEnv
  rm : RmEnv

/-- Shallow embedding of `fdt_fixups` (fdt_helper.c lines 196-201): a void
function that runs `fdt_plic_fixup(fdt, "riscv,plic0")` and then
`fdt_reserved_memory_fixup(fdt)`, DISCARDING the latter's return value.
Its result is only the pair of blob effects; no status is returned. -/
def fdt_fixups (e : FixupsEnv) : Option (List Nat) × List RmChild :=
  (fdt_plic_fixup e.plicFix, (fdt_reserved_memory_fixup e.rm).2)

end FdtHelper

namespace FdtHelper

/-- Claim C1: for address-cells and size-cells in {1,2}x{1,2} and (address,
size) representable in that width, encoding the pair as a reserved-memory
child's `reg` property and decoding it with `fdt_get_node_addr_size` (over
a node whose parent declares the same cell counts) returns the original
pair exactly. -/
theorem round_trip_reg_encode_decode (na ns : Int) (addr size : Nat)
    (h1 : na = 1 ∨ na = 2) (h2 : ns = 1 ∨ ns = 2)
    (ha : addr < 2 ^ (32 * na.toNat)) (hs : size < 2 ^ (32 * ns.toNat)) :
    fdt_get_node_addr_size
      ⟨0, na, ns, true, (na + ns) * 4, fun i => (encodeReg na ns addr size).getD i 0⟩
      true true = (0, some addr, some size) := by
  rcases h1 with rfl | rfl <;> rcases h2 with rfl | rfl
  all_goals
    norm_num [show ((1 : Int).toNat) = 1 from rfl, show ((2 : Int).toNat) = 2 from rfl] at ha hs
  all_goals simp [fdt_get_node_addr_size, decodeLoop, encodeReg, SBI_ENODEV]
  all_goals refine ⟨by omega, by omega⟩

/-- Witness for C1 at na = 2, ns = 1, addr = 0x123456789, size = 0x1000. -/
theorem round_trip_reg_encode_decode_witness :
    fdt_get_node_addr_size
      ⟨0, 2, 1, true, 12, fun i => (encodeReg 2 1 4886718345 4096).getD i 0⟩
      true true = (0, some 4886718345, some 4096) :=
  round_trip_reg_encode_decode 2 1 4886718345 4096 (Or.inr rfl) (Or.inl rfl)
    (by norm_num [show ((2 : Int).toNat) = 2 from rfl])
    (by norm_num [show ((1 : Int).toNat) = 1 from rfl])

/-- Claim C6: `fdt_get_node_addr_size` fails (negative status) exactly when
the node has no parent, the parent declares fewer than 1 address cell, the
parent's size-cell count is negative, or the node has no `reg` property;
otherwise it returns status 0.  The embedding is a pure function of the
node's read-only data, so success entails no blob mutation. -/
theorem resolver_failure_conditions (n : RegNode) (wantAddr wantSize : Bool) :
    ((fdt_get_node_addr_size n wantAddr wantSize).1 < 0 ↔
      (n.parentOff < 0 ∨ n.cellAddr < 1 ∨ n.cellSize < 0 ∨ n.hasReg = false)) ∧
    ((fdt_get_node_addr_size n wantAddr wantSize).1 = 0 ↔
      ¬(n.parentOff < 0 ∨ n.cellAddr < 1 ∨ n.cellSize < 0 ∨ n.hasReg = false)) := by
  unfold fdt_get_node_addr_size
  rcases n with ⟨p, ca, cs, hr, len, mem⟩
  by_cases hp : p < 0 <;> by_cases hca : ca < 1 <;> by_cases hcs : cs < 0 <;>
    by_cases hhr : hr = false <;>
    simp [hp, hca, hcs, hhr, SBI_ENODEV] <;> omega

/-- Claim C10: whenever the parent exists, the parent's address-cell count
is at least 1, its size-cell count is non-negative, and the node has a
`reg` property, the resolver succeeds and decodes `address-cells +
size-cells` consecutive cells from the start of `reg`; the reported byte
length of `reg` is never consulted, so the result is identical for every
reported length and a short `reg` is decoded past its actual extent. -/
theorem resolver_ignores_reg_length (n : RegNode)
    (hp : 0 ≤ n.parentOff) (hca : 1 ≤ n.cellAddr) (hcs : 0 ≤ n.cellSize)
    (hreg : n.hasReg = true) :
    (∀ len : Int,
      fdt_get_node_addr_size
        ⟨n.parentOff, n.cellAddr, n.cellSize, n.hasReg, len, n.mem⟩ true true =
      fdt_get_node_addr_size n true true) ∧
    fdt_get_node_addr_size n true true =
      (0, some (decodeLoop n.mem n.cellAddr.toNat 0 0),
          some (decodeLoop n.mem n.cellSize.toNat n.cellAddr.toNat 0)) := by
  unfold fdt_get_node_addr_size
  simp [hreg, not_lt.mpr hp, not_lt.mpr hca, not_lt.mpr hcs]

/-- Witness for C10: a node whose `reg` property reports only 4 bytes (one
cell) while the parent declares 2 address cells and 1 size cell; the
resolver succeeds and decodes three cells, reading past the property. -/
theorem resolver_ignores_reg_length_witness :
    (∀ len : Int,
      fdt_get_node_addr_size ⟨0, 2, 1, true, len, fun i => i + 7⟩ true true =
      fdt_get_node_addr_size ⟨0, 2, 1, true, 4, fun i => i + 7⟩ true true) ∧
    fdt_get_node_addr_size ⟨0, 2, 1, true, 4, fun i => i + 7⟩ true true =
      (0, some (decodeLoop (fun i => i + 7) 2 0 0),
          some (decodeLoop (fun i => i + 7) 1 2 0)) :=
  resolver_ignores_reg_length ⟨0, 2, 1, true, 4, fun i => i + 7⟩
    (by norm_num) (by norm_num) (by norm_num) rfl

/-- Counterexample for C3: a found CLINT node whose `reg` resolves
successfully to address 0; `fdt_parse_clint` returns success (0) and stores
address 0, instead of failing with `SBI_ENODEV` as the claim states — the
source tests the pointer `clint_addr`, not the resolved value. -/
theorem clint_parser_accepts_zero_address :
    fdt_parse_clint ⟨0, ⟨0, 1, 0, true, 4, fun _ => 0⟩⟩ true = (0, some 0) ∧
    (0 : Int) ≠ SBI_ENODEV := by
  exact ⟨rfl, by decide⟩

/-- Amended claim C3: the UART and PLIC parsers fail with the no-such-device
error whenever address/size resolution fails or either resolved value is
zero; the CLINT parser fails with the no-such-device error when resolution
fails or the caller passed a NULL output pointer, but a successfully
resolved address — zero included — is accepted with success status. -/
theorem parsers_no_such_device :
    (∀ (e : UartEnv) (u : UartData), 0 ≤ e.nodeOff →
      ((fdt_get_node_addr_size e.node true true).1 < 0 ∨
       (fdt_get_node_addr_size e.node true true).2.1.getD 0 = 0 ∨
       (fdt_get_node_addr_size e.node true true).2.2.getD 0 = 0) →
      fdt_parse_uart8250 e u = (SBI_ENODEV, u)) ∧
    (∀ (e : PlicParseEnv) (p : PlicData), 0 ≤ e.nodeOff →
      ((fdt_get_node_addr_size e.node true true).1 < 0 ∨
       (fdt_get_node_addr_size e.node true true).2.1.getD 0 = 0 ∨
       (fdt_get_node_addr_size e.node true true).2.2.getD 0 = 0) →
      fdt_parse_plic e p = (SBI_ENODEV, p)) ∧
    (∀ (e : ClintEnv) (b : Bool), 0 ≤ e.nodeOff →
      ((fdt_get_node_addr_size e.node b false).1 < 0 ∨ b = false) →
      (fdt_parse_clint e b).1 = SBI_ENODEV) ∧
    (∀ e : ClintEnv, 0 ≤ e.nodeOff →
      (fdt_get_node_addr_size e.node true false).1 = 0 →
      fdt_parse_clint e true = (0, (fdt_get_node_addr_size e.node true false).2.1)) := by
  refine ⟨?_, ?_, ?_, ?_⟩
  · intro e u h1 h2
    unfold fdt_parse_uart8250
    rw [if_neg (not_lt.mpr h1), if_pos h2]
  · intro e p h1 h2
    unfold fdt_parse_plic
    rw [if_neg (not_lt.mpr h1), if_pos h2]
  · intro e b h1 h2
    unfold fdt_parse_clint
    rw [if_neg (not_lt.mpr h1), if_pos h2]
  · intro e h1 h2
    unfold fdt_parse_clint
    rw [if_neg (not_lt.mpr h1), if_neg (by simp [h2])]

/-- Witness for the amended C3: a UART node whose resolver fails yields
`SBI_ENODEV` with the descriptor untouched, and a CLINT node resolving
successfully returns status 0 with the stored value. -/
theorem parsers_no_such_device_witness :
    fdt_parse_uart8250 ⟨0, ⟨-1, 1, 0, true, 4, fun _ => 0⟩, none, none⟩ ⟨0, 0, 0⟩ =
      (SBI_ENODEV, ⟨0, 0, 0⟩) ∧
    fdt_parse_clint ⟨0, ⟨0, 1, 0, true, 4, fun _ => 5⟩⟩ true =
      (0, (fdt_get_node_addr_size ⟨0, 1, 0, true, 4, fun _ => 5⟩ true false).2.1) :=
  ⟨parsers_no_such_device.1 ⟨0, ⟨-1, 1, 0, true, 4, fun _ => 0⟩, none, none⟩ ⟨0, 0, 0⟩
      (by norm_num) (Or.inl (by decide)),
   parsers_no_such_device.2.2.2 ⟨0, ⟨0, 1, 0, true, 4, fun _ => 5⟩⟩ (by norm_num) (by decide)⟩

/-- Counterexample for C4: one invalid hart whose `/cpus/cpu@0` lookup
fails (offset -1); `fdt_cpu_fixup` still attempts the
`fdt_setprop_string(fdt, -1, "status", "disabled")` call, contradicting
the claim that no property write is attempted for that index. -/
theorem cpu_fixup_attempts_write_on_missing_node :
    fdt_cpu_fixup ⟨0, 1, fun _ => true, fun _ => -1⟩ = [⟨-1, "status", "disabled"⟩] ∧
    ¬(0 ≤ (-1 : Int)) := by
  exact ⟨rfl, by decide⟩

/-- Helper: filtering a list of attempted writes down to valid node handles
commutes with building the attempt list from the hart loop. -/
theorem filter_valid_setprops (inv : Nat → Bool) (off : Nat → Int) (l : List Nat) :
    ((l.filterMap fun i =>
        if inv i then some (⟨off i, "status", "disabled"⟩ : Setprop) else none).filter
          fun s => 0 ≤ s.node) =
      l.filterMap fun i =>
        if inv i = true ∧ 0 ≤ off i then some ⟨off i, "status", "disabled"⟩ else none := by
  induction l with
  | nil => rfl
  | cons a t ih =>
    by_cases hi : inv a
    · by_cases ho : 0 ≤ off a
      · simp [List.filterMap_cons, hi, ho, List.filter_cons, ih]
      · simp [List.filterMap_cons, hi, ho, List.filter_cons, ih]
    · simp [List.filterMap_cons, hi, ih]

/-- Amended claim C4: for every invalid hart the status write is attempted
with whatever handle the lookup returned — including a failed-lookup
(negative) handle — and no write is attempted for valid harts; since the
collaborator rejects negative handles without touching the blob, the blob
is changed exactly at the indices whose node lookup succeeded and whose
hart is invalid, and is left unchanged for every failed-lookup index. -/
theorem cpu_fixup_blob_effect (e : CpuEnv) (h : 0 ≤ e.openErr) :
    fdt_cpu_fixup e =
      ((List.range e.hartCount).filterMap fun i =>
        if e.hartInvalid i then some ⟨e.pathOff i, "status", "disabled"⟩ else none) ∧
    appliedSetprops (fdt_cpu_fixup e) =
      (List.range e.hartCount).filterMap fun i =>
        if e.hartInvalid i = true ∧ 0 ≤ e.pathOff i then
          some ⟨e.pathOff i, "status", "disabled"⟩ else none := by
  have hne : ¬e.openErr < 0 := not_lt.mpr h
  constructor
  · unfold fdt_cpu_fixup
    rw [if_neg hne]
  · unfold appliedSetprops fdt_cpu_fixup
    rw [if_neg hne]
    exact filter_valid_setprops e.hartInvalid e.pathOff (List.range e.hartCount)

/-- Witness for the amended C4: two invalid harts, hart 0 with a failed
lookup and hart 1 found at offset 7; both writes are attempted but only
hart 1's lands on the blob. -/
theorem cpu_fixup_blob_effect_witness :
    fdt_cpu_fixup ⟨0, 2, fun _ => true, fun i => if i = 0 then -1 else 7⟩ =
      ((List.range 2).filterMap fun i =>
        if (fun _ : Nat => true) i then
          some ⟨(fun i : Nat => if i = 0 then -1 else 7) i, "status", "disabled"⟩
        else none) ∧
    appliedSetprops (fdt_cpu_fixup ⟨0, 2, fun _ => true, fun i => if i = 0 then -1 else 7⟩) =
      (List.range 2).filterMap fun i =>
        if (fun _ : Nat => true) i = true ∧ 0 ≤ (fun i : Nat => if i = 0 then -1 else 7) i then
          some ⟨(fun i : Nat => if i = 0 then -1 else 7) i, "status", "disabled"⟩
        else none :=
  cpu_fixup_blob_effect ⟨0, 2, fun _ => true, fun i => if i = 0 then -1 else 7⟩ (by decide)

/-- Helper: the pair-rewriting loop preserves the cell-array length. -/
theorem plicRewrite_length : ∀ cells : List Nat, (plicRewrite cells).length = cells.length
  | [] => rfl
  | [_] => rfl
  | a :: b :: rest => by simp [plicRewrite, plicRewrite_length rest]

/-- Helper: cell-by-cell characterisation of the pair-rewriting loop — a
cell changes exactly when it sits at an odd index (the second slot of a
pair) and holds `IRQ_M_EXT`, in which case it becomes `0xffffffff`. -/
theorem plicRewrite_getD : ∀ (cells : List Nat) (i : Nat),
    (plicRewrite cells).getD i 0 =
      if i % 2 = 1 ∧ cells.getD i 0 = IRQ_M_EXT then 4294967295 else cells.getD i 0
  | [], i => by simp [plicRewrite, IRQ_M_EXT]
  | [a], i => by
    cases i with
    | zero => simp [plicRewrite]
    | succ n => simp [plicRewrite, IRQ_M_EXT]
  | a :: b :: rest, 0 => by simp [plicRewrite]
  | a :: b :: rest, 1 => by
    by_cases hb : b = IRQ_M_EXT <;> simp [plicRewrite, hb]
  | a :: b :: rest, i + 2 => by
    have ih := plicRewrite_getD rest i
    simp only [plicRewrite, List.getD_cons_succ, Nat.add_mod_right]
    exact ih

/-- Claim C5: on a found controller node with an `interrupts-extended`
property, the fixup replaces the property value by its pair rewrite, which
has the same length, rewrites exactly the odd-index (second-of-pair) cells
equal to `IRQ_M_EXT` to `0xffffffff`, leaves every other cell identical,
and never touches the trailing lone cell of an odd-length array.  The model
returns only the new property value because the routine writes nothing
else, so all other bytes of the blob are untouched by construction. -/
theorem plic_fixup_rewrite_exact (e : PlicFixupEnv) (cells : List Nat)
    (h1 : 0 ≤ e.nodeOff) (h2 : e.prop = some cells) :
    fdt_plic_fixup e = some (plicRewrite cells) ∧
    (plicRewrite cells).length = cells.length ∧
    (∀ i, (plicRewrite cells).getD i 0 =
      if i % 2 = 1 ∧ cells.getD i 0 = IRQ_M_EXT then 4294967295 else cells.getD i 0) ∧
    (cells.length % 2 = 1 →
      (plicRewrite cells).getD (cells.length - 1) 0 = cells.getD (cells.length - 1) 0) := by
  refine ⟨?_, plicRewrite_length cells, plicRewrite_getD cells, ?_⟩
  · unfold fdt_plic_fixup
    rw [if_neg (not_lt.mpr h1), h2]
    show (if cells.length = 0 then some cells else some (plicRewrite cells)) =
      some (plicRewrite cells)
    by_cases hl : cells.length = 0
    · obtain rfl := List.length_eq_zero.mp hl
      simp [plicRewrite]
    · rw [if_neg hl]
  · intro hodd
    rw [plicRewrite_getD]
    have hmod : ¬((cells.length - 1) % 2 = 1) := by omega
    simp [hmod]

/-- Witness for C5 on the odd-length array [5, 11, 7, 9, 3]: cell 1 (11 =
`IRQ_M_EXT`) is rewritten, cells 0, 2, 3 and the trailing lone cell 3 are
untouched. -/
theorem plic_fixup_rewrite_exact_witness :
    fdt_plic_fixup ⟨0, some [5, 11, 7, 9, 3]⟩ = some (plicRewrite [5, 11, 7, 9, 3]) ∧
    (plicRewrite [5, 11, 7, 9, 3]).length = ([5, 11, 7, 9, 3] : List Nat).length ∧
    (∀ i, (plicRewrite [5, 11, 7, 9, 3]).getD i 0 =
      if i % 2 = 1 ∧ ([5, 11, 7, 9, 3] : List Nat).getD i 0 = IRQ_M_EXT then 4294967295
      else ([5, 11, 7, 9, 3] : List Nat).getD i 0) ∧
    (([5, 11, 7, 9, 3] : List Nat).length % 2 = 1 →
      (plicRewrite [5, 11, 7, 9, 3]).getD (([5, 11, 7, 9, 3] : List Nat).length - 1) 0 =
        ([5, 11, 7, 9, 3] : List Nat).getD (([5, 11, 7, 9, 3] : List Nat).length - 1) 0) :=
  plic_fixup_rewrite_exact ⟨0, some [5, 11, 7, 9, 3]⟩ [5, 11, 7, 9, 3] (by norm_num) rfl

/-- Helper: when every per-child operation succeeds, the region loop returns
status 0 and one child per eligible region, in table order, with `j`
numbering the eligible regions consecutively. -/
theorem rmLoop_ok (env : RmEnv) (hc : rmChildOpsOk env) :
    ∀ (tbl : List (Nat × Nat × Nat)) (j : Nat),
      rmLoop env tbl j =
        (0, ((tbl.filter fun r => pmpEligible r.1).enumFrom j).map fun p =>
          (⟨childName env.na p.1 (p.2.2.1 / 4294967296 % 4294967296) (p.2.2.1 % 4294967296),
            true, some (encodeReg env.na env.ns p.2.2.1 p.2.2.2)⟩ : RmChild)) := by
  intro tbl
  induction tbl with
  | nil => intro j; rfl
  | cons hd rest ih =>
    intro j
    obtain ⟨prot, addr, size⟩ := hd
    by_cases hA : prot &&& PMP_A = 0
    · have hel : pmpEligible prot = false := by simp [pmpEligible, hA]
      simp [rmLoop, hA, List.filter_cons, hel, ih j]
    · by_cases hR : prot &&& (PMP_R ||| PMP_W ||| PMP_X) = 0
      · have hel : pmpEligible prot = true := by simp [pmpEligible, hA, hR]
        obtain ⟨ha1, ha2, ha3⟩ := hc j
        simp [rmLoop, hA, hR, List.filter_cons, hel, not_lt.mpr ha1, not_lt.mpr ha2,
          not_lt.mpr ha3, ih (j + 1), List.enumFrom]
      · have hel : pmpEligible prot = false := by simp [pmpEligible, hR]
        simp [rmLoop, hA, hR, List.filter_cons, hel, ih j]

/-- Helper: under a successful setup phase the whole fixup reduces to the
region loop started at index 0. -/
theorem rm_fixup_eq_loop (env : RmEnv) (hs : rmSetupOk env) :
    fdt_reserved_memory_fixup env = rmLoop env env.pmp 0 := by
  obtain ⟨h1, h2, h3⟩ := hs
  unfold fdt_reserved_memory_fixup
  rcases h3 with h3 | ⟨h3a, h3b, h3c, h3d⟩
  · simp [h1, not_lt.mpr h2, not_lt.mpr h3]
  · by_cases hr : env.resvOff < 0
    · simp [h1, not_lt.mpr h2, hr, not_lt.mpr h3a, not_lt.mpr h3b, not_lt.mpr h3c,
        not_lt.mpr h3d]
    · simp [h1, not_lt.mpr h2, hr]

/-- Helper: projecting the `reg` property out of the loop's child list
recovers one encoded (address, size) pair per region, forgetting the
enumeration index. -/
theorem rm_children_reg (env : RmEnv) :
    ∀ (l : List (Nat × Nat × Nat)) (n : Nat),
      (((l.enumFrom n).map fun p =>
          (⟨childName env.na p.1 (p.2.2.1 / 4294967296 % 4294967296) (p.2.2.1 % 4294967296),
            true, some (encodeReg env.na env.ns p.2.2.1 p.2.2.2)⟩ : RmChild)).map
        fun c => c.reg) =
      l.map fun r => some (encodeReg env.na env.ns r.2.1 r.2.2) := by
  intro l
  induction l with
  | nil => intro n; rfl
  | cons a t ih => intro n; simpa [List.enumFrom] using ih (n + 1)

/-- Claim C2: under an active protection platform with a successful setup
phase and successful per-child operations, the reserved-memory fixup
succeeds and emits exactly one child per protection region that is active
and grants none of read/write/execute — all inactive regions and all
regions with any R/W/X bit are skipped — in source-table order, each child
carrying that region's encoded (address, size). -/
theorem reserved_memory_children_iff_guard (env : RmEnv)
    (hs : rmSetupOk env) (hc : rmChildOpsOk env) :
    (fdt_reserved_memory_fixup env).1 = 0 ∧
    (fdt_reserved_memory_fixup env).2.map (fun c => c.reg) =
      (env.pmp.filter fun r => pmpEligible r.1).map
        fun r => some (encodeReg env.na env.ns r.2.1 r.2.2) := by
  rw [rm_fixup_eq_loop env hs, rmLoop_ok env hc env.pmp 0]
  exact ⟨rfl, rm_children_reg env (env.pmp.filter fun r => pmpEligible r.1) 0⟩

/-- Witness for C2: one pure-guard region (prot 24 = active, no R/W/X) and
one active read-permitted region (prot 25); exactly the first is emitted. -/
theorem reserved_memory_children_iff_guard_witness :
    (fdt_reserved_memory_fixup
      ⟨true, 0, 0, 0, 0, 0, 0, 2, 2, [(24, 2147483648, 2097152), (25, 4096, 4096)],
        fun _ => 0, fun _ => 0, fun _ => 0⟩).1 = 0 ∧
    (fdt_reserved_memory_fixup
      ⟨true, 0, 0, 0, 0, 0, 0, 2, 2, [(24, 2147483648, 2097152), (25, 4096, 4096)],
        fun _ => 0, fun _ => 0, fun _ => 0⟩).2.map (fun c => c.reg) =
      (([(24, 2147483648, 2097152), (25, 4096, 4096)] : List (Nat × Nat × Nat)).filter
        fun r => pmpEligible r.1).map
        fun r => some (encodeReg 2 2 r.2.1 r.2.2) :=
  reserved_memory_children_iff_guard
    ⟨true, 0, 0, 0, 0, 0, 0, 2, 2, [(24, 2147483648, 2097152), (25, 4096, 4096)],
      fun _ => 0, fun _ => 0, fun _ => 0⟩
    ⟨rfl, by decide, Or.inl (by decide)⟩ (fun j => ⟨le_refl 0, le_refl 0, le_refl 0⟩)

/-- Helper: pointwise, the loop's synthesized child name agrees with the
specified name shape — `mmode_pmp<j>@<addr>` in hexadecimal, or
`mmode_pmp<j>@<high>,<low>` when the root has 2 address cells and the upper
32 address bits are nonzero — provided each address is representable in
the declared width. -/
theorem rm_children_names (env : RmEnv) (hna : env.na = 1 ∨ env.na = 2) :
    ∀ l : List (Nat × Nat × Nat), (∀ r ∈ l, r.2.1 < 2 ^ (32 * env.na.toNat)) →
      ∀ n : Nat,
      (((l.enumFrom n).map fun p =>
          (⟨childName env.na p.1 (p.2.2.1 / 4294967296 % 4294967296) (p.2.2.1 % 4294967296),
            true, some (encodeReg env.na env.ns p.2.2.1 p.2.2.2)⟩ : RmChild)).map
        fun c => c.name) =
      (l.enumFrom n).map fun p =>
        if 1 < env.na ∧ p.2.2.1 / 4294967296 ≠ 0 then
          "mmode_pmp" ++ toString p.1 ++ "@" ++ hexStr (p.2.2.1 / 4294967296) ++ "," ++
            hexStr (p.2.2.1 % 4294967296)
        else "mmode_pmp" ++ toString p.1 ++ "@" ++ hexStr p.2.2.1 := by
  intro l
  induction l with
  | nil => intro _ n; rfl
  | cons a t ih =>
    intro hw n
    have hwa := hw a (List.mem_cons_self a t)
    have ht : ∀ r ∈ t, r.2.1 < 2 ^ (32 * env.na.toNat) :=
      fun r hr => hw r (List.mem_cons_of_mem a hr)
    simp only [List.enumFrom, List.map_cons]
    rw [ih ht (n + 1)]
    congr 1
    rcases hna with h | h
    · rw [h] at hwa
      norm_num [show ((1 : Int).toNat) = 1 from rfl] at hwa
      unfold childName
      rw [h]
      simp [Nat.mod_eq_of_lt hwa]
    · rw [h] at hwa
      norm_num [show ((2 : Int).toNat) = 2 from rfl] at hwa
      have hmod : a.2.1 / 4294967296 % 4294967296 = a.2.1 / 4294967296 :=
        Nat.mod_eq_of_lt (by omega)
      unfold childName
      rw [h, hmod]
      by_cases hz : a.2.1 / 4294967296 = 0
      · have hlt : a.2.1 < 4294967296 := by omega
        simp [hz, Nat.mod_eq_of_lt hlt]
      · simp [hz, show (1 : Int) < 2 by norm_num]

/-- Claim C7: each emitted child is named `mmode_pmp<j>@<addr>` with `j`
the zero-based running count of eligible regions only (ineligible table
entries do not advance it) and `<addr>` the region's address in lowercase
hexadecimal; when the root declares 2 address cells and the address's upper
32 bits are nonzero, the name is `mmode_pmp<j>@<high>,<low>` instead.
Addresses are assumed representable in the declared width, which the spec
makes a precondition of the encoding. -/
theorem reserved_memory_child_names (env : RmEnv)
    (hs : rmSetupOk env) (hc : rmChildOpsOk env)
    (hna : env.na = 1 ∨ env.na = 2)
    (hw : ∀ r ∈ env.pmp, r.2.1 < 2 ^ (32 * env.na.toNat)) :
    (fdt_reserved_memory_fixup env).2.map (fun c => c.name) =
      ((env.pmp.filter fun r => pmpEligible r.1).enumFrom 0).map fun p =>
        if 1 < env.na ∧ p.2.2.1 / 4294967296 ≠ 0 then
          "mmode_pmp" ++ toString p.1 ++ "@" ++ hexStr (p.2.2.1 / 4294967296) ++ "," ++
            hexStr (p.2.2.1 % 4294967296)
        else "mmode_pmp" ++ toString p.1 ++ "@" ++ hexStr p.2.2.1 := by
  rw [rm_fixup_eq_loop env hs, rmLoop_ok env hc env.pmp 0]
  exact rm_children_names env hna (env.pmp.filter fun r => pmpEligible r.1)
    (fun r hr => hw r (List.mem_of_mem_filter hr)) 0

/-- Witness for C7: three regions — an eligible one at 0x80000000 (short
name form), an ineligible read-permitted one, and an eligible one at
0x100000000 whose upper 32 bits are nonzero (high,low name form); the
second eligible region gets index 1 even though it is third in the table. -/
theorem reserved_memory_child_names_witness :
    (fdt_reserved_memory_fixup
      ⟨true, 0, 0, 0, 0, 0, 0, 2, 2,
        [(24, 2147483648, 2097152), (25, 4096, 4096), (24, 4294967296, 4096)],
        fun _ => 0, fun _ => 0, fun _ => 0⟩).2.map (fun c => c.name) =
      ((([(24, 2147483648, 2097152), (25, 4096, 4096), (24, 4294967296, 4096)] :
          List (Nat × Nat × Nat)).filter fun r => pmpEligible r.1).enumFrom 0).map fun p =>
        if 1 < (2 : Int) ∧ p.2.2.1 / 4294967296 ≠ 0 then
          "mmode_pmp" ++ toString p.1 ++ "@" ++ hexStr (p.2.2.1 / 4294967296) ++ "," ++
            hexStr (p.2.2.1 % 4294967296)
        else "mmode_pmp" ++ toString p.1 ++ "@" ++ hexStr p.2.2.1 :=
  reserved_memory_child_names
    ⟨true, 0, 0, 0, 0, 0, 0, 2, 2,
      [(24, 2147483648, 2097152), (25, 4096, 4096), (24, 4294967296, 4096)],
      fun _ => 0, fun _ => 0, fun _ => 0⟩
    ⟨rfl, by decide, Or.inl (by decide)⟩ (fun j => ⟨le_refl 0, le_refl 0, le_refl 0⟩)
    (Or.inr rfl) (by decide)

/-- Counterexample for C9 at address-cells 1, size-cells 0 — both inside
the claim's stated range (each at most 2, address cells at least 1): the
encoding loop writes 2 cells (the address-low and size-low cells) while
the declared `reg` byte length (1+0)*4 = 4 covers only 1 cell, so the
declared length does not equal the bytes written. -/
theorem reg_staging_mismatch_at_size_cells_zero :
    regCellsWritten 1 0 = 2 ∧ ((1 : Int) + 0) * 4 ≠ 4 * regCellsWritten 1 0 := by
  exact ⟨by decide, by decide⟩

/-- Amended claim C9: for address-cells and size-cells each between 1 and
2, the loop writes exactly address-cells + size-cells of the 4 staging
cells and the declared byte length (address-cells + size-cells) * 4 equals
the bytes written, so no cell outside the buffer is read or written (with
size-cells 0, the low size cell is still written, so one more cell is
written than declared — see the counterexample); the written cells always
number the encoded list's length; and for cell-count sums exceeding 4 the
equality fails in the other direction: at most 4 cells are written while
the declared length covers cells past the end of the 16-byte buffer. -/
theorem reg_staging_buffer_exact :
    (∀ na ns : Int, 1 ≤ na → na ≤ 2 → 1 ≤ ns → ns ≤ 2 →
      regCellsWritten na ns = na + ns ∧
      regCellsWritten na ns ≤ 4 ∧
      (na + ns) * 4 = 4 * regCellsWritten na ns) ∧
    (∀ (na ns : Int) (addr size : Nat),
      ((encodeReg na ns addr size).length : Int) = regCellsWritten na ns) ∧
    (∀ na ns : Int, 1 ≤ na → 0 ≤ ns → 4 < na + ns →
      regCellsWritten na ns ≤ 4 ∧ 16 < (na + ns) * 4) := by
  refine ⟨?_, ?_, ?_⟩
  · intro na ns h1 h2 h3 h4
    unfold regCellsWritten
    refine ⟨?_, ?_, ?_⟩ <;> split_ifs <;> omega
  · intro na ns addr size
    unfold encodeReg regCellsWritten
    split_ifs <;> simp
  · intro na ns h1 h2 h3
    unfold regCellsWritten
    refine ⟨by split_ifs <;> omega, by omega⟩

/-- Witness for the amended C9 at (2,2) and at the over-wide (3,2). -/
theorem reg_staging_buffer_exact_witness :
    (regCellsWritten 2 2 = 2 + 2 ∧ regCellsWritten 2 2 ≤ 4 ∧
      ((2 : Int) + 2) * 4 = 4 * regCellsWritten 2 2) ∧
    (regCellsWritten 3 2 ≤ 4 ∧ 16 < ((3 : Int) + 2) * 4) :=
  ⟨reg_staging_buffer_exact.1 2 2 (by decide) (by decide) (by decide) (by decide),
   reg_staging_buffer_exact.2.2 3 2 (by decide) (by decide) (by decide)⟩

/-- Counterexample for C8: with blob growth failing with a capacity error
(-1), `fdt_reserved_memory_fixup` itself returns -1, yet the convenience
entry `fdt_fixups` — a void function in the source — produces a result
identical to that of a run with memory protection disabled (which
succeeds): the failure is discarded, not propagated to the caller. -/
theorem fixups_discard_failure_counterexample :
    (fdt_reserved_memory_fixup
      ⟨true, -1, 0, 0, 0, 0, 0, 2, 2, [], fun _ => 0, fun _ => 0, fun _ => 0⟩).1 = -1 ∧
    (fdt_reserved_memory_fixup
      ⟨false, 0, 0, 0, 0, 0, 0, 2, 2, [], fun _ => 0, fun _ => 0, fun _ => 0⟩).1 = 0 ∧
    fdt_fixups ⟨⟨-1, none⟩,
      ⟨true, -1, 0, 0, 0, 0, 0, 2, 2, [], fun _ => 0, fun _ => 0, fun _ => 0⟩⟩ =
    fdt_fixups ⟨⟨-1, none⟩,
      ⟨false, 0, 0, 0, 0, 0, 0, 2, 2, [], fun _ => 0, fun _ => 0, fun _ => 0⟩⟩ := by
  exact ⟨rfl, rfl, rfl⟩

/-- Amended claim C8: the convenience entry runs the interrupt-routing
fixup and then the reserved-memory fixup but returns nothing; a capacity
failure inside the reserved-memory fixup is discarded by the convenience
entry — its observable outcome equals that of a run with protection
disabled — although the reserved-memory fixup itself does return the
propagated failure to its own direct caller. -/
theorem fixups_void_discards_reserved_errors (p : PlicFixupEnv) (r rn : RmEnv)
    (h1 : r.hasPmp = true) (h2 : r.openIntoErr < 0) (h3 : rn.hasPmp = false) :
    (fdt_reserved_memory_fixup r).1 = r.openIntoErr ∧
    fdt_fixups ⟨p, r⟩ = fdt_fixups ⟨p, rn⟩ := by
  unfold fdt_fixups fdt_reserved_memory_fixup
  simp [h1, h2, h3]

/-- Witness for the amended C8 at a concrete capacity failure of -2. -/
theorem fixups_void_discards_reserved_errors_witness :
    (fdt_reserved_memory_fixup
      ⟨true, -2, 1, 0, 0, 0, 0, 1, 1, [], fun _ => 0, fun _ => 0, fun _ => 0⟩).1 = -2 ∧
    fdt_fixups ⟨⟨0, some [11]⟩,
      ⟨true, -2, 1, 0, 0, 0, 0, 1, 1, [], fun _ => 0, fun _ => 0, fun _ => 0⟩⟩ =
    fdt_fixups ⟨⟨0, some [11]⟩,
      ⟨false, 0, 1, 0, 0, 0, 0, 1, 1, [], fun _ => 0, fun _ => 0, fun _ => 0⟩⟩ :=
  fixups_void_discards_reserved_errors ⟨0, some [11]⟩
    ⟨true, -2, 1, 0, 0, 0, 0, 1, 1, [], fun _ => 0, fun _ => 0, fun _ => 0⟩
    ⟨false, 0, 1, 0, 0, 0, 0, 1, 1, [], fun _ => 0, fun _ => 0, fun _ => 0⟩
    rfl (by decide) rfl

end FdtHelper
